import Mathlib

/-!
# Verification of the Offline NPoS Election Tool core

A shallow embedding, in Lean 4, of the election computation engine of the
offline election tool: the entity model (`ValidatorCandidate`, `Nominator`,
`ElectionData`), configuration and override handling, result assembly and the
post-computation validation gates, and the engine orchestration
(`ElectionEngine.execute`).

Conventions of the embedding:
* Rust `u128`/`u64`/`u32` values are `Nat`; arithmetic that can wrap in the
  source (u128 sums, `as u32` casts) is taken modulo the corresponding
  power of two at the point where the source performs it.
* Fallible Rust functions returning `Result<T, ElectionError>` become
  `Except ElectionError T`.
* The selection computation itself is delegated by the source to the external
  `sp_npos_elections` crate, which is not part of this repository's sources;
  those functions are modelled from the specification (see the doc comments
  starting with `Modelled from the spec:`).
* Serde metadata fields (candidate/nominator metadata, dataset provenance) are
  inert in the whole computation path and are omitted from the structures.
  The `f64` field `proportion` of a stake allocation is produced for external
  consumption only and is never used internally; floating point lies outside
  the embedding and the field is omitted.
-/

deriving instance DecidableEq for Except

namespace OfflineElection

/-- `u64::MAX` as a natural number. -/
def U64MAX : Nat := 2 ^ 64 - 1

/-- The modulus of `u128` arithmetic. -/
def U128MOD : Nat := 2 ^ 128

/-- The modulus of `u32` arithmetic (used by the `as u32` cast). -/
def U32MOD : Nat := 2 ^ 32

/-- One `Perbill` unit: parts per billion. -/
def PERBILL : Nat := 10 ^ 9

/-- `src/models/validator.rs`: a validator candidate (metadata omitted). -/
structure ValidatorCandidate where
  account_id : String
  stake : Nat
deriving DecidableEq

/-- `src/models/nominator.rs`: a nominator (metadata omitted). -/
structure Nominator where
  account_id : String
  stake : Nat
  targets : List String
deriving DecidableEq

/-- `Nominator::add_target`: push the target unless it is already present. -/
def Nominator.add_target (n : Nominator) (candidate_id : String) : Nominator :=
  if n.targets.contains candidate_id then n
  else { n with targets := n.targets ++ [candidate_id] }

/-- `Nominator::remove_target`: retain only targets different from the id. -/
def Nominator.remove_target (n : Nominator) (candidate_id : String) : Nominator :=
  { n with targets := n.targets.filter (fun id => id != candidate_id) }

/-- `src/models/election_data.rs`: candidates plus nominators
(provenance metadata omitted as inert). -/
structure ElectionData where
  candidates : List ValidatorCandidate
  nominators : List Nominator
deriving DecidableEq

/-- `src/types.rs`: the closed enumeration of algorithm kinds. -/
inductive AlgorithmType where
  | sequentialPhragmen
  | parallelPhragmen
  | multiPhase
deriving DecidableEq

/-- `src/error.rs`: the error taxonomy (RPC and file variants, which the core
engine never constructs, are kept for completeness with `String` paths). -/
inductive ElectionError where
  | validationError (message : String) (fieldName : Option String)
  | rpcError (message : String) (url : String)
  | algorithmError (message : String) (algorithm : AlgorithmType)
  | insufficientCandidates (requested : Nat) (available : Nat)
  | invalidData (message : String)
  | fileError (message : String) (path : String)
deriving DecidableEq

/-- The `HashSet`-insert loop of `ElectionData::validate`, which stops at the
first identifier that repeats an earlier one and reports that identifier. -/
def firstDup : List String → List String → Option String
  | [], _ => none
  | x :: xs, seen => if x ∈ seen then some x else firstDup xs (x :: seen)

/-- The "Available candidates" listing built by `ElectionData::validate`:
first five candidate ids, comma separated, with a `(and n more)` suffix when
more than five exist. -/
def candidateListStr (candidates : List ValidatorCandidate) : String :=
  let available := (candidates.take 5).map (·.account_id)
  if candidates.length > 5 then
    String.intercalate ", " available ++ " (and " ++
      toString (candidates.length - 5) ++ " more)"
  else
    String.intercalate ", " available

/-- The message of the dangling-target validation error, exactly as the
`format!` call in `ElectionData::validate` produces it. -/
def danglingMsg (nominatorId target candidateList : String) : String :=
  "Nominator '" ++ nominatorId ++ "' votes for " ++ "non-existent" ++
    " candidate '" ++ target ++ "'. Available candidates: " ++ candidateList

/-- The nested loop of `ElectionData::validate` that finds the first
(nominator, target) pair whose target is not a candidate identifier. -/
def findDangling (candidateIds : List String) : List Nominator → Option (String × String)
  | [] => none
  | n :: ns =>
    match n.targets.find? (fun t => !(candidateIds.contains t)) with
    | some t => some (n.account_id, t)
    | none => findDangling candidateIds ns

/-- `ElectionData::validate`: non-empty candidates, unique candidate ids,
unique nominator ids, and every nominator target resolvable. -/
def ElectionData.validate (data : ElectionData) : Except ElectionError Unit :=
  if data.candidates.isEmpty then
    .error (.validationError
      ("Election data must contain at least one validator candidate, but found " ++
        toString data.candidates.length ++ ". Please add at least one candidate.")
      (some "candidates"))
  else
    match firstDup (data.candidates.map (·.account_id)) [] with
    | some id => .error (.validationError
        ("Duplicate candidate account ID: " ++ id) (some "candidates"))
    | none =>
      match firstDup (data.nominators.map (·.account_id)) [] with
      | some id => .error (.validationError
          ("Duplicate nominator account ID: " ++ id) (some "nominators"))
      | none =>
        match findDangling (data.candidates.map (·.account_id)) data.nominators with
        | some (nid, t) => .error (.validationError
            (danglingMsg nid t (candidateListStr data.candidates))
            (some "nominators.targets"))
        | none => .ok ()

/-- `src/models/election_overrides.rs`: the action of an edge modification. -/
inductive EdgeAction where
  | add
  | remove
  | modify
deriving DecidableEq

/-- `src/models/election_overrides.rs`: one voting-edge modification. -/
structure EdgeModification where
  action : EdgeAction
  nominator_id : String
  candidate_id : String
  weight : Option Nat
deriving DecidableEq

/-- `src/models/election_overrides.rs`: the override set. The Rust stake maps
are `HashMap`s with unique keys; they are embedded as association lists (each
key written at most once, and distinct keys commute, so the list order is
immaterial to the final dataset). -/
structure ElectionOverrides where
  candidate_stakes : List (String × Nat)
  nominator_stakes : List (String × Nat)
  voting_edges : List EdgeModification
  active_set_size : Option Nat
deriving DecidableEq

/-- `src/models/election_config.rs`: the election configuration. -/
structure ElectionConfiguration where
  algorithm : AlgorithmType
  active_set_size : Nat
  overrides : Option ElectionOverrides
  block_number : Option Nat
deriving DecidableEq

/-- `ElectionConfiguration::validate`: the active-set size must be positive. -/
def ElectionConfiguration.validate (config : ElectionConfiguration) :
    Except ElectionError Unit :=
  if config.active_set_size = 0 then
    .error (.validationError "Active set size must be positive"
      (some "active_set_size"))
  else
    .ok ()

/-- `ElectionConfiguration::build`: validate then return the configuration. -/
def ElectionConfiguration.build (config : ElectionConfiguration) :
    Except ElectionError ElectionConfiguration := do
  config.validate
  .ok config

/-- `ElectionConfiguration::validate_against_data`: the requested size must
not exceed the candidate count; the error carries the requested size and the
available count cast `as u32`. -/
def ElectionConfiguration.validateAgainstData (config : ElectionConfiguration)
    (candidateCount : Nat) : Except ElectionError Unit :=
  if candidateCount < config.active_set_size then
    .error (.insufficientCandidates config.active_set_size (candidateCount % U32MOD))
  else
    .ok ()

/-- The `iter_mut().find(...)` update of `ElectionEngine::apply_overrides` on
the candidate list: rewrite the stake of the first candidate with the id. -/
def setCandidateStake : List ValidatorCandidate → String → Nat → List ValidatorCandidate
  | [], _, _ => []
  | c :: cs, id, st =>
    if c.account_id = id then { c with stake := st } :: cs
    else c :: setCandidateStake cs id st

/-- The `iter_mut().find(...)` update of `ElectionEngine::apply_overrides` on
the nominator list: apply `f` to the first nominator with the id. -/
def updateNominator : List Nominator → String → (Nominator → Nominator) → List Nominator
  | [], _, _ => []
  | n :: ns, id, f =>
    if n.account_id = id then f n :: ns
    else n :: updateNominator ns id f

/-- One step of the edge-modification loop of
`ElectionEngine::apply_overrides`. -/
def applyEdgeModification (data : ElectionData) (em : EdgeModification) : ElectionData :=
  match em.action with
  | .add =>
    { data with nominators :=
        (updateNominator data.nominators em.nominator_id
          (fun n => n.add_target em.candidate_id)) }
  | .remove =>
    { data with nominators :=
        (updateNominator data.nominators em.nominator_id
          (fun n => n.remove_target em.candidate_id)) }
  | .modify =>
    { data with nominators :=
        (updateNominator data.nominators em.nominator_id
          (fun n => (n.remove_target em.candidate_id).add_target em.candidate_id)) }

/-- `ElectionEngine::apply_overrides`: candidate-stake overrides, then
nominator-stake overrides, then the ordered edge modifications, all best
effort (absent identifiers are silently ignored). -/
def ElectionEngine.applyOverrides (data : ElectionData) (ov : ElectionOverrides) :
    ElectionData :=
  let d1 := ov.candidate_stakes.foldl
    (fun d p => { d with candidates := setCandidateStake d.candidates p.1 p.2 }) data
  let d2 := ov.nominator_stakes.foldl
    (fun d p => { d with nominators :=
        (updateNominator d.nominators p.1 (fun n => { n with stake := p.2 })) }) d1
  ov.voting_edges.foldl applyEdgeModification d2

/-- `src/models/election_result.rs`: a selected validator. -/
structure SelectedValidator where
  account_id : String
  total_backing_stake : Nat
  nominator_count : Nat
  rank : Option Nat
deriving DecidableEq

/-- `src/models/election_result.rs`: one stake allocation (the `f64`
`proportion` field, produced for external consumption only, is omitted). -/
structure StakeAllocation where
  nominator_id : String
  validator_id : String
  amount : Nat
deriving DecidableEq

/-- `src/models/election_result.rs`: execution metadata (the wall-clock
timestamp is an I/O effect outside the pure embedding and is omitted). -/
structure ExecutionMetadata where
  block_number : Option Nat
  data_source : Option String
deriving DecidableEq

/-- `src/models/election_result.rs`: the public election result. -/
structure ElectionResult where
  selected_validators : List SelectedValidator
  stake_distribution : List StakeAllocation
  total_stake : Nat
  algorithm_used : AlgorithmType
  execution_metadata : ExecutionMetadata
deriving DecidableEq

/-- `ElectionEngine::validate_result`: the final gate.  The validator count
must equal the configured active-set size, and the (u128) sum of the
allocation amounts must equal the reported total stake. -/
def ElectionEngine.validateResult (result : ElectionResult)
    (config : ElectionConfiguration) : Except ElectionError Unit :=
  if result.selected_validators.length ≠ config.active_set_size then
    .error (.validationError
      ("Result has " ++ toString result.selected_validators.length ++
        " validators but expected " ++ toString config.active_set_size)
      (some "selected_validators"))
  else
    let totalAllocated :=
      (result.stake_distribution.foldl (fun a x => a + x.amount) 0) % U128MOD
    if totalAllocated ≠ result.total_stake then
      .error (.validationError
        ("Stake distribution total " ++ toString totalAllocated ++
          " doesn't match total stake " ++ toString result.total_stake)
        (some "stake_distribution"))
    else
      .ok ()

/-- An exact fraction (integer numerator over a positive natural denominator),
the "fixed-point fraction / integer numerator-denominator pair" the spec
prescribes for all internal algorithm arithmetic. -/
structure Frac where
  num : Int
  den : Nat
deriving DecidableEq

/-- The zero load every nominator starts with. -/
def Frac.zero : Frac := ⟨0, 1⟩

/-- Strict comparison of fractions by cross multiplication. -/
def Frac.lt (a b : Frac) : Bool := a.num * (b.den : Int) < b.num * (a.den : Int)

/-- Exact addition of fractions (no normalisation needed for exactness). -/
def Frac.add (a b : Frac) : Frac :=
  ⟨a.num * (b.den : Int) + b.num * (a.den : Int), a.den * b.den⟩

/-- Exact subtraction of fractions. -/
def Frac.sub (a b : Frac) : Frac :=
  ⟨a.num * (b.den : Int) - b.num * (a.den : Int), a.den * b.den⟩

/-- Scale a fraction by a natural stake. -/
def Frac.scale (stake : Nat) (f : Frac) : Frac := ⟨(stake : Int) * f.num, f.den⟩

/-- Divide a fraction by a natural number. -/
def Frac.divNat (f : Frac) (n : Nat) : Frac := ⟨f.num, f.den * n⟩

/-- A candidate score: `some` an exact fraction, or `none` for the sentinel
the spec assigns to candidates with no approving stake ("never preferred over
any candidate with real backing, but can still be chosen if no other
candidate remains"). -/
def scoreLt : Option Frac → Option Frac → Bool
  | some a, some b => Frac.lt a b
  | some _, none => true
  | none, _ => false

/-- Voter state of the modelled Phragmén computation: identifier, (u64)
stake, approved targets, current load, and the per-edge loads accumulated for
the already-elected candidates the voter approves. -/
structure PVoter where
  who : String
  stake : Nat
  targets : List String
  load : Frac
  edges : List (String × Frac)
deriving DecidableEq

/-- The approvers of candidate `c`: every voter whose target list holds `c`. -/
def approvers (voters : List PVoter) (c : String) : List PVoter :=
  voters.filter (fun v => v.targets.contains c)

/-- Modelled from the spec: the per-round score of §4.2 for one candidate —
numerator `1 + Σ (stake_v × load_v)` over the approvers, denominator
`Σ stake_v` over the same set, and the sentinel (`none`) when the denominator
is zero. -/
def candScore (voters : List PVoter) (c : String) : Option Frac :=
  let app := approvers voters c
  let den := app.foldl (fun a v => a + v.stake) 0
  if den = 0 then none
  else some ((app.foldl (fun acc v => acc.add (Frac.scale v.stake v.load))
    (⟨1, 1⟩ : Frac)).divNat den)

/-- One step of the §4.2 minimum search: keep the current best unless the
next not-yet-elected candidate scores strictly lower (so on a tie the earlier
candidate, already held as best, wins). -/
def pickStep (elected : List String) (voters : List PVoter)
    (best : Option (String × Option Frac)) (c : String) :
    Option (String × Option Frac) :=
  if elected.contains c then best
  else
    let s := candScore voters c
    match best with
    | none => some (c, s)
    | some (_, sb) => if scoreLt s sb then some (c, s) else best

/-- Modelled from the spec: §4.2 step 2 — the not-yet-elected candidate with
the strictly minimal score wins the round, ties broken by the candidate's
position in the original ingestion order (earlier wins). -/
def pickWinner (cands : List String) (elected : List String) (voters : List PVoter) :
    Option (String × Option Frac) :=
  cands.foldl (pickStep elected voters) none

/-- Modelled from the spec: §4.2 step 3 — every voter approving the winner
has its load set to the winner's score; the increment over the voter's
previous load is recorded as the load of the voter's edge to the winner.  A
sentinel-scored winner has no approving stake and changes no load. -/
def electUpdate (w : String) (s : Option Frac) (voters : List PVoter) : List PVoter :=
  match s with
  | none => voters
  | some sc =>
    voters.map (fun v =>
      if v.targets.contains w then
        { v with load := sc, edges := v.edges ++ [(w, sc.sub v.load)] }
      else v)

/-- Modelled from the spec: the round loop of §4.2, run once per seat; it
stops early only when no unelected candidate remains. -/
def phragmenLoop : Nat → List String → List String → List PVoter →
    List String × List PVoter
  | 0, _, elected, voters => (elected, voters)
  | k + 1, cands, elected, voters =>
    match pickWinner cands elected voters with
    | none => (elected, voters)
    | some (w, s) => phragmenLoop k cands (elected ++ [w]) (electUpdate w s voters)

/-- The `Perbill` part (floor of `part/whole · 10⁹`) of the ratio of two
fractions; a voter holding an edge always has a positive load. -/
def ratioParts (part whole : Frac) : Nat :=
  ((part.num * (whole.den : Int) * (PERBILL : Int)) /
    ((part.den : Int) * whole.num)).toNat

/-- Multiplication of a `Perbill` by a u128 balance, as the overflow-safe
split `(b / 10⁹) · parts + (b % 10⁹) · parts / 10⁹` of the arithmetic crate
backing the source's `*portion * nominator.stake`. -/
def perbillMul (parts b : Nat) : Nat :=
  (b / PERBILL) * parts + (b % PERBILL) * parts / PERBILL

/-- The shape of `sp_npos_elections` assignments: a voter identifier and its
`Perbill` distribution over elected candidates. -/
structure Assignment where
  who : String
  distribution : List (String × Nat)
deriving DecidableEq

/-- The shape of an `sp_npos_elections` solution: winners in selection order
with their total backing, plus all voter assignments. -/
structure PhragmenSolution where
  winners : List (String × Nat)
  assignments : List Assignment
deriving DecidableEq

/-- The backing stake of a winner: the (u64-budget) stake the voters assign
to it through their `Perbill` edge ratios. -/
def winnerBacking (voters : List PVoter) (w : String) : Nat :=
  voters.foldl
    (fun acc v =>
      acc + (v.edges.foldl
        (fun a e => if e.1 = w then a + perbillMul (ratioParts e.2 v.load) v.stake else a)
        0))
    0

/-- Modelled from the spec: `sp_npos_elections::seq_phragmen`, which the
source calls but which is not part of this repository's sources.  The round
structure, exact-fraction scoring, zero-approval sentinel, ingestion-order
tie-break, and load update follow §4.2; each voter's stake is attributed to
its elected targets in proportion to the accumulated per-edge loads (the
telescoping increments of the voter's load), converted to `Perbill` parts.
The optional post-hoc equalisation of §4.2 is omitted because the source
passes `None` as the balancing configuration. -/
def seqPhragmen (k : Nat) (cands : List String)
    (voters0 : List (String × Nat × List String)) : PhragmenSolution :=
  let pv : List PVoter :=
    voters0.map (fun t => ⟨t.1, t.2.1, t.2.2, Frac.zero, []⟩)
  let res := phragmenLoop k cands [] pv
  { winners := res.1.map (fun w => (w, winnerBacking res.2 w)),
    assignments :=
      res.2.filterMap (fun v =>
        if v.edges.isEmpty then none
        else some ⟨v.who, v.edges.map (fun e => (e.1, ratioParts e.2 v.load))⟩) }

/-- Modelled from the spec: the §4.3 max-min score of one candidate — the
worst case, across the candidate's approvers, of the best approval stake the
approver could still reach through any of its not-yet-elected targets; the
sentinel (`none`) marks a candidate with no approving stake. -/
def mmsScore (voters : List PVoter) (elected : List String) (c : String) : Option Nat :=
  let app := (approvers voters c).filter (fun v => v.stake ≠ 0)
  match app with
  | [] => none
  | v0 :: rest =>
    let best := fun (v : PVoter) =>
      (v.targets.filter (fun t => !(elected.contains t))).foldl
        (fun m t =>
          max m ((approvers voters t).foldl (fun a u => a + u.stake) 0))
        0
    some (rest.foldl (fun m v => min m (best v)) (best v0))

/-- One step of the §4.3 maximum search: keep the current best unless the
next not-yet-elected candidate scores strictly higher (so on a tie the
earlier candidate, already held as best, wins); a sentinel-scored candidate
never displaces one with real backing. -/
def mmsPickStep (elected : List String) (voters : List PVoter)
    (best : Option (String × Option Nat)) (c : String) :
    Option (String × Option Nat) :=
  if elected.contains c then best
  else
    let s := mmsScore voters elected c
    match best with
    | none => some (c, s)
    | some (_, sb) =>
      match s, sb with
      | some a, some b => if b < a then some (c, s) else best
      | some _, none => some (c, s)
      | none, _ => best

/-- Modelled from the spec: the §4.3 round — every remaining candidate is
scored and the maximal score wins, ties broken by ingestion order (earlier
wins); a sentinel-scored candidate is never preferred over one with real
backing but can still be chosen when no other remains. -/
def mmsPickWinner (cands : List String) (elected : List String)
    (voters : List PVoter) : Option String :=
  (cands.foldl (mmsPickStep elected voters) none).map (·.1)

/-- Modelled from the spec: the winner loop of §4.3. -/
def mmsLoop : Nat → List String → List String → List PVoter → List String
  | 0, _, elected, _ => elected
  | k + 1, cands, elected, voters =>
    match mmsPickWinner cands elected voters with
    | none => elected
    | some w => mmsLoop k cands (elected ++ [w]) voters

/-- Modelled from the spec: `sp_npos_elections::phragmms`, which the source
calls but which is not part of this repository's sources.  §4.3 fixes the
input/output shape, the max-min scoring style, the ingestion-order tie-break
and the sentinel policy; the spec leaves the stake attribution loose (the
source passes `None` as the balancing configuration, skipping the optional
equalisation), so each voter's stake is split evenly over its elected
targets. -/
def phragmms (k : Nat) (cands : List String)
    (voters0 : List (String × Nat × List String)) : PhragmenSolution :=
  let pv : List PVoter :=
    voters0.map (fun t => ⟨t.1, t.2.1, t.2.2, Frac.zero, []⟩)
  let elected := mmsLoop k cands [] pv
  let assignments :=
    pv.filterMap (fun v =>
      let ts := v.targets.filter (fun t => elected.contains t)
      if ts.isEmpty then none
      else some (⟨v.who, ts.map (fun t => (t, PERBILL / ts.length))⟩ : Assignment))
  { winners :=
      elected.map (fun w =>
        (w, pv.foldl
          (fun acc v =>
            let ts := v.targets.filter (fun t => elected.contains t)
            if ts.contains w then acc + perbillMul (PERBILL / ts.length) v.stake
            else acc)
          0)),
    assignments := assignments }

/-- The candidate-id list handed to the selection crate, in ingestion order
(`src/algorithms/*`). -/
def candidateIds (data : ElectionData) : List String :=
  data.candidates.map (·.account_id)

/-- The `candidate_lookup` of the algorithm files.  The Rust `HashMap` keeps
the last entry on duplicate ids; the engine validates uniqueness before any
algorithm runs, making first-match lookup equivalent. -/
def candidateFind (data : ElectionData) (id : String) : Option ValidatorCandidate :=
  data.candidates.find? (fun c => c.account_id == id)

/-- The `nominator_lookup` of the algorithm files (same uniqueness remark as
`candidateFind`). -/
def nominatorFind (data : ElectionData) (id : String) : Option Nominator :=
  data.nominators.find? (fun n => n.account_id == id)

/-- The voter list built by `SequentialPhragmen::execute`: targets filtered to
existing candidates, empty-target nominators skipped, and the u128 stake
clamped to `u64::MAX` and truncated to u64. -/
def seqVoters (data : ElectionData) : List (String × Nat × List String) :=
  data.nominators.filterMap (fun n =>
    let targets := n.targets.filter (fun id => (candidateIds data).contains id)
    if targets.isEmpty then none
    else some (n.account_id, min n.stake U64MAX, targets))

/-- The voter list built by `ParallelPhragmen::execute` (same construction as
the sequential file). -/
def parVoters (data : ElectionData) : List (String × Nat × List String) :=
  data.nominators.filterMap (fun n =>
    let targets := n.targets.filter (fun id => (candidateIds data).contains id)
    if targets.isEmpty then none
    else some (n.account_id, min n.stake U64MAX, targets))

/-- The voter list built by `MultiPhase::execute` (same construction as the
sequential file). -/
def mpVoters (data : ElectionData) : List (String × Nat × List String) :=
  data.nominators.filterMap (fun n =>
    let targets := n.targets.filter (fun id => (candidateIds data).contains id)
    if targets.isEmpty then none
    else some (n.account_id, min n.stake U64MAX, targets))

/-- The `for (rank, (winner_id, total_backing)) in winners.iter().enumerate()`
loop shared verbatim by the three algorithm files, with the running index
passed explicitly: look each winner up among the candidates, count the
assignments whose distribution touches it, and attach the 1-based rank. -/
def buildSelectedGo (data : ElectionData) (assignments : List Assignment) :
    Nat → List (String × Nat) → List SelectedValidator
  | _, [] => []
  | rank, w :: ws =>
    match candidateFind data w.1 with
    | some cand =>
      { account_id := cand.account_id,
        total_backing_stake := w.2,
        nominator_count :=
          (assignments.filter
            (fun a => a.distribution.any (fun d => d.1 == w.1))).length,
        rank := some (rank + 1) } :: buildSelectedGo data assignments (rank + 1) ws
    | none => buildSelectedGo data assignments (rank + 1) ws

/-- The winners-to-`SelectedValidator` conversion shared verbatim by the three
algorithm files. -/
def buildSelected (data : ElectionData) (solution : PhragmenSolution) :
    List SelectedValidator :=
  buildSelectedGo data solution.assignments 0 solution.winners

/-- The stake-distribution construction shared verbatim by the three algorithm
files: for each assignment, look the nominator up and emit one allocation per
distribution entry with `amount = portion * nominator.stake` on the full u128
stake. -/
def buildDistribution (data : ElectionData) (solution : PhragmenSolution) :
    List StakeAllocation :=
  solution.assignments.foldl
    (fun acc a =>
      match nominatorFind data a.who with
      | some nom =>
        acc ++ a.distribution.map (fun d =>
          { nominator_id := nom.account_id,
            validator_id := d.1,
            amount := perbillMul d.2 nom.stake })
      | none => acc)
    []

/-- The `total_stake` reported by every algorithm file: the u128 sum of the
full (untruncated) stakes of all nominators. -/
def totalNominatorStake (data : ElectionData) : Nat :=
  (data.nominators.foldl (fun s n => s + n.stake) 0) % U128MOD

/-- `SequentialPhragmen::execute` (`src/algorithms/sequential_phragmen.rs`):
reject an empty candidate list, build voters, run the (modelled)
`seq_phragmen`, and assemble the result. -/
def SequentialPhragmen.execute (data : ElectionData)
    (config : ElectionConfiguration) : Except ElectionError ElectionResult :=
  if data.candidates.isEmpty then
    .error (.validationError "Cannot run election with zero candidates" none)
  else
    let solution := seqPhragmen config.active_set_size (candidateIds data) (seqVoters data)
    .ok { selected_validators := buildSelected data solution,
          stake_distribution := buildDistribution data solution,
          total_stake := totalNominatorStake data,
          algorithm_used := .sequentialPhragmen,
          execution_metadata := { block_number := config.block_number, data_source := none } }

/-- `ParallelPhragmen::execute` (`src/algorithms/parallel_phragmen.rs`): same
structure as the sequential file, dispatching to the (modelled) `phragmms`. -/
def ParallelPhragmen.execute (data : ElectionData)
    (config : ElectionConfiguration) : Except ElectionError ElectionResult :=
  if data.candidates.isEmpty then
    .error (.validationError "Cannot run election with zero candidates" none)
  else
    let solution := phragmms config.active_set_size (candidateIds data) (parVoters data)
    .ok { selected_validators := buildSelected data solution,
          stake_distribution := buildDistribution data solution,
          total_stake := totalNominatorStake data,
          algorithm_used := .parallelPhragmen,
          execution_metadata := { block_number := config.block_number, data_source := none } }

/-- `MultiPhase::execute` (`src/algorithms/multi_phase.rs`): multi-phase
elections use sequential Phragmén as the underlying algorithm. -/
def MultiPhase.execute (data : ElectionData)
    (config : ElectionConfiguration) : Except ElectionError ElectionResult :=
  if data.candidates.isEmpty then
    .error (.validationError "Cannot run election with zero candidates" none)
  else
    let solution := seqPhragmen config.active_set_size (candidateIds data) (mpVoters data)
    .ok { selected_validators := buildSelected data solution,
          stake_distribution := buildDistribution data solution,
          total_stake := totalNominatorStake data,
          algorithm_used := .multiPhase,
          execution_metadata := { block_number := config.block_number, data_source := none } }

/-- The trait-object dispatch of `ElectionEngine::execute`. -/
def algorithmExecute (alg : AlgorithmType) (data : ElectionData)
    (config : ElectionConfiguration) : Except ElectionError ElectionResult :=
  match alg with
  | .sequentialPhragmen => SequentialPhragmen.execute data config
  | .parallelPhragmen => ParallelPhragmen.execute data config
  | .multiPhase => MultiPhase.execute data config

/-- `ElectionEngine::execute`: validate the data, validate the configuration
against the candidate count, clone the dataset and apply overrides to the
clone, run the selected algorithm on the clone, and gate the result through
`validate_result`. -/
def ElectionEngine.execute (config : ElectionConfiguration) (data : ElectionData) :
    Except ElectionError ElectionResult := do
  data.validate
  config.validateAgainstData data.candidates.length
  let modifiedData :=
    match config.overrides with
    | some ov => ElectionEngine.applyOverrides data ov
    | none => data
  let result ← algorithmExecute config.algorithm modifiedData config
  ElectionEngine.validateResult result config
  return result

/-- `ElectionEngine::execute` with the caller's dataset threaded explicitly:
the borrow passes the dataset by value and hands it back, the overrides being
applied only to the `data.clone()` working copy.  The second component is the
caller's dataset as observable after the call. -/
def ElectionEngine.executeTracked (config : ElectionConfiguration)
    (callerData : ElectionData) : Except ElectionError ElectionResult × ElectionData :=
  (ElectionEngine.execute config callerData, callerData)

/-- Dataset of the C10 witness: one candidate, one nominator whose stake
`2⁶⁴ + 5` exceeds `u64::MAX`. -/
def clampWitnessData : ElectionData := ⟨[⟨"C", 7⟩], [⟨"N", 2 ^ 64 + 5, ["C"]⟩]⟩

/-- The result the sequential algorithm produces on `clampWitnessData`:
backing clamped to `u64::MAX`, total stake the full `2⁶⁴ + 5`. -/
def clampWitnessResult : ElectionResult :=
  ⟨[⟨"C", 2 ^ 64 - 1, 1, some 1⟩], [⟨"N", "C", 2 ^ 64 + 5⟩], 2 ^ 64 + 5,
    .sequentialPhragmen, ⟨none, none⟩⟩

/-! ## General lemmas about the embedding -/

/-- Inversion of a successful `Except` bind. -/
theorem exceptBindOk {ε α β : Type} {e : Except ε α} {f : α → Except ε β} {b : β}
    (h : e >>= f = Except.ok b) : ∃ a, e = Except.ok a ∧ f a = Except.ok b := by
  cases e with
  | error ex => simp [Bind.bind, Except.bind] at h
  | ok a => exact ⟨a, rfl, by simpa [Bind.bind, Except.bind] using h⟩

/-- A result that clears `validate_result` has exactly the configured number
of selected validators and a conserved stake sum. -/
theorem validateResult_ok {result : ElectionResult} {config : ElectionConfiguration}
    {u : Unit} (h : ElectionEngine.validateResult result config = Except.ok u) :
    result.selected_validators.length = config.active_set_size ∧
      (result.stake_distribution.foldl (fun a x => a + x.amount) 0) % U128MOD
        = result.total_stake := by
  unfold ElectionEngine.validateResult at h
  split at h
  · exact absurd h (by simp)
  · rename_i hlen
    by_cases hc : (result.stake_distribution.foldl (fun a x => a + x.amount) 0) % U128MOD
        ≠ result.total_stake
    · simp [hc] at h
    · exact ⟨by omega, by omega⟩

/-- An `ok` of `ElectionEngine::execute` factors through every stage of the
pipeline; in particular the result passed the final `validate_result` gate. -/
theorem execute_ok_validated {config : ElectionConfiguration} {data : ElectionData}
    {result : ElectionResult}
    (h : ElectionEngine.execute config data = Except.ok result) :
    ∃ u, ElectionEngine.validateResult result config = Except.ok u := by
  unfold ElectionEngine.execute at h
  obtain ⟨u1, h1, h⟩ := exceptBindOk h
  obtain ⟨u2, h2, h⟩ := exceptBindOk h
  obtain ⟨r, hr, h⟩ := exceptBindOk h
  obtain ⟨u3, h3, h⟩ := exceptBindOk h
  have : r = result := by simpa [Pure.pure, Except.pure] using h
  exact ⟨u3, this ▸ h3⟩

/-! ## Claim theorems -/

/-- C1 counterexample: a dataset that passes every validation (one candidate,
one nominator with stake 7 and an empty target list) with active-set size
1 ≤ 1 candidate nevertheless makes `ElectionEngine::execute` fail — the
conservation gate of `validate_result` rejects the run because the reported
`total_stake` is 7 (the sum over all nominators) while the stake distribution
is empty.  The claim's assertion that execution on validated inputs returns a
result is therefore false. -/
theorem claim_C1_counterexample :
    ElectionData.validate ⟨[⟨"V", 3⟩], [⟨"W", 7, []⟩]⟩ = Except.ok () ∧
    (1 : Nat) ≤ 1 ∧
    ElectionEngine.execute ⟨.sequentialPhragmen, 1, none, none⟩
        ⟨[⟨"V", 3⟩], [⟨"W", 7, []⟩]⟩ =
      Except.error (.validationError
        "Stake distribution total 0 doesn't match total stake 7"
        (some "stake_distribution")) := by decide

/-- C1 (amended): whenever `ElectionEngine::execute` returns a result, its
`selected_validators` list has length exactly `active_set_size` (execution on
a validated input is not guaranteed to return a result: the `validate_result`
gate may still reject it, as the counterexample shows); and whenever the
dataset passes validation but `active_set_size` exceeds the candidate count,
`execute` fails with `InsufficientCandidates` (raised by
`validate_against_data`, which the engine runs before dispatching to any
selection algorithm). -/
theorem claim_C1_cardinality (config : ElectionConfiguration) (data : ElectionData)
    (h32 : config.active_set_size < U32MOD) :
    (∀ result, ElectionEngine.execute config data = Except.ok result →
      result.selected_validators.length = config.active_set_size) ∧
    (data.validate = Except.ok () → data.candidates.length < config.active_set_size →
      ElectionEngine.execute config data =
        Except.error (.insufficientCandidates config.active_set_size
          data.candidates.length)) := by
  constructor
  · intro result h
    obtain ⟨u, hu⟩ := execute_ok_validated h
    exact (validateResult_ok hu).1
  · intro hval hcount
    unfold ElectionEngine.execute
    rw [hval]
    have hva : config.validateAgainstData data.candidates.length =
        Except.error (.insufficientCandidates config.active_set_size
          data.candidates.length) := by
      unfold ElectionConfiguration.validateAgainstData
      rw [if_pos hcount, Nat.mod_eq_of_lt (hcount.trans h32)]
    rw [hva]
    rfl

/-- C1 witness: a dataset of one candidate with a requested active-set size
of 3 is rejected with `InsufficientCandidates 3 1`. -/
theorem claim_C1_cardinality_witness :
    ElectionEngine.execute ⟨.sequentialPhragmen, 3, none, none⟩
        ⟨[⟨"A", 7⟩], []⟩ =
      Except.error (.insufficientCandidates 3 1) :=
  (claim_C1_cardinality ⟨.sequentialPhragmen, 3, none, none⟩ ⟨[⟨"A", 7⟩], []⟩
    (by decide)).2 (by decide) (by decide)

/-- C3: for every execution that returns `Ok`, the (u128) sum of the
`stake_distribution` amounts equals the reported `total_stake` exactly; a
discrepancy is turned into a `ValidationError` by the `validate_result` gate
rather than returned. -/
theorem claim_C3_conservation (config : ElectionConfiguration) (data : ElectionData)
    (result : ElectionResult)
    (h : ElectionEngine.execute config data = Except.ok result) :
    (result.stake_distribution.foldl (fun a x => a + x.amount) 0) % U128MOD
      = result.total_stake := by
  obtain ⟨u, hu⟩ := execute_ok_validated h
  exact (validateResult_ok hu).2

/-- C3 witness: the one-candidate, one-nominator scenario executes to `Ok`
and its allocation sum equals its total stake. -/
theorem claim_C3_conservation_witness :
    (([(⟨"N", "C", 500000000⟩ : StakeAllocation)].foldl (fun a x => a + x.amount) 0)
        % U128MOD) = 500000000 := by
  have h : ElectionEngine.execute ⟨.sequentialPhragmen, 1, none, none⟩
      ⟨[⟨"C", 1000000000⟩], [⟨"N", 500000000, ["C"]⟩]⟩ =
      Except.ok ⟨[⟨"C", 500000000, 1, some 1⟩], [⟨"N", "C", 500000000⟩],
        500000000, .sequentialPhragmen, ⟨none, none⟩⟩ := by decide
  simpa using claim_C3_conservation _ _ _ h

/-- C5: `ElectionEngine::execute` never mutates the caller's dataset — the
tracked execution hands the dataset back unchanged (overrides are applied to
the `data.clone()` working copy only), so re-running without the override set
on the dataset observable after the call reproduces the result on the
original dataset. -/
theorem claim_C5_override_isolation (config : ElectionConfiguration)
    (data : ElectionData) :
    (ElectionEngine.executeTracked config data).2 = data ∧
    ElectionEngine.executeTracked { config with overrides := none }
        (ElectionEngine.executeTracked config data).2 =
      ElectionEngine.executeTracked { config with overrides := none } data :=
  ⟨rfl, rfl⟩

/-- C7: `ElectionConfiguration::validate` rejects an active-set size of 0
with a `ValidationError` naming the `active_set_size` field, and
`validate_against_data` rejects any size exceeding the candidate count with
an `InsufficientCandidates` error carrying both the requested size and the
available count (no clamping). -/
theorem claim_C7_config_validation :
    (∀ config : ElectionConfiguration, config.active_set_size = 0 →
      config.validate = Except.error (.validationError
        "Active set size must be positive" (some "active_set_size"))) ∧
    (∀ (config : ElectionConfiguration) (candidateCount : Nat),
      candidateCount < config.active_set_size → config.active_set_size < U32MOD →
      config.validateAgainstData candidateCount =
        Except.error (.insufficientCandidates config.active_set_size candidateCount)) := by
  constructor
  · intro c h
    unfold ElectionConfiguration.validate
    rw [if_pos h]
  · intro c n h h32
    unfold ElectionConfiguration.validateAgainstData
    rw [if_pos h, Nat.mod_eq_of_lt (h.trans h32)]

/-- C7 witness: size 0 is rejected naming the field, and requesting 10 of 5
available candidates yields `InsufficientCandidates 10 5`. -/
theorem claim_C7_config_validation_witness :
    ElectionConfiguration.validate ⟨.sequentialPhragmen, 0, none, none⟩ =
      Except.error (.validationError "Active set size must be positive"
        (some "active_set_size")) ∧
    ElectionConfiguration.validateAgainstData ⟨.sequentialPhragmen, 10, none, none⟩ 5 =
      Except.error (.insufficientCandidates 10 5) :=
  ⟨claim_C7_config_validation.1 ⟨.sequentialPhragmen, 0, none, none⟩ rfl,
   claim_C7_config_validation.2 ⟨.sequentialPhragmen, 10, none, none⟩ 5
     (by decide) (by decide)⟩

/-- C9: execution is a pure function of configuration and dataset — two
executions of the same inputs are identical — and the round-winner selection
breaks ties by ingestion order: whenever the second candidate's score is not
strictly below the first's (ties included), the earlier candidate wins. -/
theorem claim_C9_determinism :
    (∀ (config : ElectionConfiguration) (data : ElectionData),
      ElectionEngine.execute config data = ElectionEngine.execute config data) ∧
    (∀ (c₁ c₂ : String) (voters : List PVoter),
      scoreLt (candScore voters c₂) (candScore voters c₁) = false →
      pickWinner [c₁, c₂] [] voters = some (c₁, candScore voters c₁)) := by
  constructor
  · intro _ _
    rfl
  · intro c₁ c₂ voters h
    simp [pickWinner, pickStep, List.foldl, h]

/-- C9 witness: a concrete run is equal to itself, and with two tied
candidates (both at the sentinel score) the earlier one wins the round. -/
theorem claim_C9_determinism_witness :
    ElectionEngine.execute ⟨.sequentialPhragmen, 1, none, none⟩ ⟨[⟨"A", 3⟩], []⟩ =
      ElectionEngine.execute ⟨.sequentialPhragmen, 1, none, none⟩ ⟨[⟨"A", 3⟩], []⟩ ∧
    pickWinner ["A", "B"] [] [] = some ("A", none) := by
  constructor
  · exact claim_C9_determinism.1 ⟨.sequentialPhragmen, 1, none, none⟩ ⟨[⟨"A", 3⟩], []⟩
  · have h := claim_C9_determinism.2 "A" "B" [] (by decide)
    simpa using h

/-- C6 counterexample: with a nominator whose targets are `["A", "B"]`, a
`Modify` ("replace") edge modification for target `"A"` — which is not in the
final position — yields a dataset different from the input: the target moves
to the end of the list (`["B", "A"]`).  The claimed no-op fails for this
position of the target. -/
theorem claim_C6_counterexample :
    ElectionEngine.applyOverrides ⟨[⟨"A", 1⟩, ⟨"B", 1⟩], [⟨"n", 10, ["A", "B"]⟩]⟩
        ⟨[], [], [⟨.modify, "n", "A", none⟩], none⟩ ≠
      ⟨[⟨"A", 1⟩, ⟨"B", 1⟩], [⟨"n", 10, ["A", "B"]⟩]⟩ ∧
    (ElectionEngine.applyOverrides ⟨[⟨"A", 1⟩, ⟨"B", 1⟩], [⟨"n", 10, ["A", "B"]⟩]⟩
        ⟨[], [], [⟨.modify, "n", "A", none⟩], none⟩).nominators.map (·.targets) =
      [["B", "A"]] := by decide

/-- C6 (amended): a `Modify` ("replace") edge modification removes every
occurrence of the target from the first matching nominator's list and appends
the target at the end; it therefore changes only that nominator's target
list, to `filter (≠ target) ++ [target]`, and is a no-op only when the target
already occupied exactly the final position. -/
theorem claim_C6_modify_moves_target (data : ElectionData) (nid cid : String)
    (w : Option Nat) :
    ElectionEngine.applyOverrides data ⟨[], [], [⟨.modify, nid, cid, w⟩], none⟩ =
      { data with nominators :=
          (updateNominator data.nominators nid
            (fun n => (n.remove_target cid).add_target cid)) } ∧
    (∀ n : Nominator, ((n.remove_target cid).add_target cid).targets =
      n.targets.filter (fun id => id != cid) ++ [cid]) := by
  constructor
  · rfl
  · intro n
    simp [Nominator.add_target, Nominator.remove_target]

/-- C10: every one of the three algorithm implementations clamps each
participating nominator's u128 stake to `u64::MAX` when building the voter
list handed to the selection computation, while the reported `total_stake`
sums the full untruncated u128 stakes. -/
theorem claim_C10_stake_clamping :
    (∀ (data : ElectionData) (n : Nominator), n ∈ data.nominators →
      ∀ ts : List String,
        ts = n.targets.filter (fun id => (candidateIds data).contains id) →
        ts ≠ [] →
        ((n.account_id, min n.stake U64MAX, ts) ∈ seqVoters data ∧
         (n.account_id, min n.stake U64MAX, ts) ∈ parVoters data ∧
         (n.account_id, min n.stake U64MAX, ts) ∈ mpVoters data)) ∧
    (∀ (data : ElectionData) (config : ElectionConfiguration) (r : ElectionResult),
      (SequentialPhragmen.execute data config = Except.ok r ∨
       ParallelPhragmen.execute data config = Except.ok r ∨
       MultiPhase.execute data config = Except.ok r) →
      r.total_stake = totalNominatorStake data) := by
  constructor
  · intro data n hn ts hts hne
    have hval : (fun nom : Nominator =>
        let targets := nom.targets.filter (fun id => (candidateIds data).contains id)
        if targets.isEmpty then none
        else some (nom.account_id, min nom.stake U64MAX, targets)) n =
        some (n.account_id, min n.stake U64MAX, ts) := by
      simp only []
      rw [← hts]
      rw [if_neg (by simpa [List.isEmpty_iff] using hne)]
    exact ⟨List.mem_filterMap.mpr ⟨n, hn, hval⟩,
           List.mem_filterMap.mpr ⟨n, hn, hval⟩,
           List.mem_filterMap.mpr ⟨n, hn, hval⟩⟩
  · intro data config r h
    rcases h with h | h | h
    all_goals {
      first
      | unfold SequentialPhragmen.execute at h
      | unfold ParallelPhragmen.execute at h
      | unfold MultiPhase.execute at h
      split at h
      · exact absurd h (by simp)
      · injection h with h2
        rw [← h2]
    }

/-- C10 witness: the over-u64 nominator enters all three voter lists with its
stake clamped to `u64::MAX`, while the sequential run reports the full
untruncated total. -/
theorem claim_C10_stake_clamping_witness :
    (("N", min ((2 : Nat) ^ 64 + 5) U64MAX, ["C"]) ∈ seqVoters clampWitnessData ∧
     ("N", min ((2 : Nat) ^ 64 + 5) U64MAX, ["C"]) ∈ parVoters clampWitnessData ∧
     ("N", min ((2 : Nat) ^ 64 + 5) U64MAX, ["C"]) ∈ mpVoters clampWitnessData) ∧
    clampWitnessResult.total_stake = totalNominatorStake clampWitnessData ∧
    min ((2 : Nat) ^ 64 + 5) U64MAX = 2 ^ 64 - 1 ∧
    clampWitnessResult.total_stake = 2 ^ 64 + 5 := by
  have hm := claim_C10_stake_clamping.1 clampWitnessData ⟨"N", 2 ^ 64 + 5, ["C"]⟩
    (by decide) ["C"] (by decide) (by decide)
  have hok : SequentialPhragmen.execute clampWitnessData
      ⟨.sequentialPhragmen, 1, none, none⟩ = Except.ok clampWitnessResult := by decide
  have ht := claim_C10_stake_clamping.2 clampWitnessData
    ⟨.sequentialPhragmen, 1, none, none⟩ clampWitnessResult (Or.inl hok)
  exact ⟨hm, ht, by decide, by decide⟩

/-- C4 counterexample: on the concrete scenario (one candidate with stake
1,000,000,000; one nominator with stake 500,000,000 approving it; active-set
size 1) execution reports `total_stake = 500,000,000` — the sum of nominator
stakes only, as the algorithm files compute it — not the claimed
1,500,000,000 that would include the candidate's self-stake. -/
theorem claim_C4_counterexample :
    (ElectionEngine.execute ⟨.sequentialPhragmen, 1, none, none⟩
        ⟨[⟨"val", 1000000000⟩], [⟨"nom", 500000000, ["val"]⟩]⟩).map
      (fun r => r.total_stake) = Except.ok 500000000 ∧
    (500000000 : Nat) ≠ 1500000000 := by decide

/-- C4 (amended): on the concrete scenario, execution succeeds with exactly
one selected validator equal to the candidate, and reports
`total_stake = 500,000,000` (the nominator's stake; candidate self-stake is
not included in the reported total). -/
theorem claim_C4_single_pair_scenario :
    ElectionEngine.execute ⟨.sequentialPhragmen, 1, none, none⟩
        ⟨[⟨"val", 1000000000⟩], [⟨"nom", 500000000, ["val"]⟩]⟩ =
      Except.ok ⟨[⟨"val", 500000000, 1, some 1⟩], [⟨"nom", "val", 500000000⟩],
        500000000, .sequentialPhragmen, ⟨none, none⟩⟩ := by decide

/-! ## Lemmas about `ElectionData::validate` -/

/-- If the dangling-target search comes back empty, every target of every
nominator resolves to a candidate identifier. -/
theorem findDangling_none {cids : List String} {noms : List Nominator}
    (h : findDangling cids noms = none) :
    ∀ n ∈ noms, ∀ t ∈ n.targets, cids.contains t = true := by
  induction noms with
  | nil => simp
  | cons n ns ih =>
    intro m hm t ht
    unfold findDangling at h
    cases hf : n.targets.find? (fun t => !(cids.contains t)) with
    | some t' => rw [hf] at h; exact absurd h (by simp)
    | none =>
      rw [hf] at h
      rcases List.mem_cons.mp hm with rfl | hm'
      · have := List.find?_eq_none.mp hf t ht
        simpa using this
      · exact ih h m hm' t ht

/-- A successful dangling-target search returns the identifier of a nominator
in the list together with one of its targets that matches no candidate id. -/
theorem findDangling_some {cids : List String} {noms : List Nominator} {nid t : String}
    (h : findDangling cids noms = some (nid, t)) :
    ∃ n ∈ noms, n.account_id = nid ∧ t ∈ n.targets ∧ cids.contains t = false := by
  induction noms with
  | nil => simp [findDangling] at h
  | cons n ns ih =>
    unfold findDangling at h
    cases hf : n.targets.find? (fun t => !(cids.contains t)) with
    | some t' =>
      rw [hf] at h
      have hpair : n.account_id = nid ∧ t' = t := by
        simpa using h
      have hmem := List.mem_of_find?_eq_some hf
      have hp := List.find?_some hf
      refine ⟨n, List.mem_cons_self n ns, hpair.1, hpair.2 ▸ hmem, ?_⟩
      rw [← hpair.2]
      simpa using hp
    | none =>
      rw [hf] at h
      obtain ⟨m, hm, rest⟩ := ih h
      exact ⟨m, List.mem_cons_of_mem n hm, rest⟩

/-- The duplicate scan of `ElectionData::validate` finds nothing on a
duplicate-free list whose elements avoid the already-seen set. -/
theorem firstDup_eq_none {l : List String} (hnd : l.Nodup) :
    ∀ seen : List String, (∀ x ∈ l, x ∉ seen) → firstDup l seen = none := by
  induction l with
  | nil => intro seen _; rfl
  | cons x xs ih =>
    intro seen hdisj
    unfold firstDup
    rw [if_neg (hdisj x (List.mem_cons_self x xs))]
    refine ih (List.nodup_cons.mp hnd).2 (x :: seen) ?_
    intro y hy
    rw [List.mem_cons]
    push_neg
    refine ⟨?_, hdisj y (List.mem_cons_of_mem x hy)⟩
    intro hxy
    exact (List.nodup_cons.mp hnd).1 (hxy ▸ hy)

/-- A dataset that passes validation has no dangling target. -/
theorem validate_ok_no_dangling {data : ElectionData}
    (h : data.validate = Except.ok ()) :
    findDangling (data.candidates.map (·.account_id)) data.nominators = none := by
  unfold ElectionData.validate at h
  split at h
  · exact absurd h (by simp)
  · split at h
    · exact absurd h (by simp)
    · split at h
      · exact absurd h (by simp)
      · split at h
        · exact absurd h (by simp)
        · assumption

/-- Under the earlier validation phases (non-empty candidates, duplicate-free
identifier lists), a successful dangling-target search determines the exact
validation error. -/
theorem validate_error_dangling {data : ElectionData} {nid t : String}
    (hne : data.candidates ≠ [])
    (hndC : (data.candidates.map (·.account_id)).Nodup)
    (hndN : (data.nominators.map (·.account_id)).Nodup)
    (hfd : findDangling (data.candidates.map (·.account_id)) data.nominators
      = some (nid, t)) :
    data.validate = Except.error (.validationError
      (danglingMsg nid t (candidateListStr data.candidates))
      (some "nominators.targets")) := by
  unfold ElectionData.validate
  rw [if_neg (by simpa [List.isEmpty_iff] using hne)]
  rw [firstDup_eq_none hndC [] (by simp)]
  rw [firstDup_eq_none hndN [] (by simp)]
  rw [hfd]

/-- C8: a dataset in which some nominator's target list holds an identifier
matching no candidate never validates; when the earlier validation phases
pass (non-empty candidates, duplicate-free identifier lists), the failure is
a `ValidationError` with field `nominators.targets` whose message is the
dangling-target message for some dangling (nominator, target) pair — and
that message contains the nominator's identifier, the missing candidate
identifier, and the text `non-existent` as substrings. -/
theorem claim_C8_dangling_target (data : ElectionData) (n : Nominator) (t : String)
    (hn : n ∈ data.nominators) (ht : t ∈ n.targets)
    (hd : ∀ c ∈ data.candidates, c.account_id ≠ t) :
    data.validate ≠ Except.ok () ∧
    (data.candidates ≠ [] →
     (data.candidates.map (·.account_id)).Nodup →
     (data.nominators.map (·.account_id)).Nodup →
     ∃ n' t', n' ∈ data.nominators ∧ t' ∈ n'.targets ∧
       (∀ c ∈ data.candidates, c.account_id ≠ t') ∧
       data.validate = Except.error (.validationError
         (danglingMsg n'.account_id t' (candidateListStr data.candidates))
         (some "nominators.targets"))) ∧
    (∀ nid tg cl : String,
      nid.data <:+: (danglingMsg nid tg cl).data ∧
      tg.data <:+: (danglingMsg nid tg cl).data ∧
      "non-existent".data <:+: (danglingMsg nid tg cl).data) := by
  have hnotmem : t ∉ data.candidates.map (·.account_id) := by
    intro hmem
    obtain ⟨c, hc, hct⟩ := List.mem_map.mp hmem
    exact hd c hc hct
  refine ⟨?_, ?_, ?_⟩
  · intro hok
    have hfd := validate_ok_no_dangling hok
    have := findDangling_none hfd n hn t ht
    exact hnotmem (by simpa using this)
  · intro hne hndC hndN
    cases hfd : findDangling (data.candidates.map (·.account_id)) data.nominators with
    | none =>
      have := findDangling_none hfd n hn t ht
      exact absurd (by simpa using this) hnotmem
    | some p =>
      obtain ⟨nid1, t1⟩ := p
      obtain ⟨n', hn', hid, ht', hcont⟩ := findDangling_some hfd
      refine ⟨n', t1, hn', ht', ?_, ?_⟩
      · intro c hc hct
        have : t1 ∈ data.candidates.map (·.account_id) :=
          List.mem_map.mpr ⟨c, hc, hct⟩
        simp [this] at hcont
      · rw [hid]
        exact validate_error_dangling hne hndC hndN hfd
  · intro nid tg cl
    refine ⟨?_, ?_, ?_⟩
    · have h : (danglingMsg nid tg cl).data =
          "Nominator '".data ++ (nid.data ++ ("' votes for ".data ++
            ("non-existent".data ++ (" candidate '".data ++ (tg.data ++
              ("'. Available candidates: ".data ++ cl.data)))))) := by
        simp [danglingMsg, String.data_append, List.append_assoc]
      rw [h, ← List.append_assoc]
      exact List.infix_append _ _ _
    · have h : (danglingMsg nid tg cl).data =
          ("Nominator '".data ++ nid.data ++ "' votes for ".data ++
            "non-existent".data ++ " candidate '".data) ++ (tg.data ++
              ("'. Available candidates: ".data ++ cl.data)) := by
        simp [danglingMsg, String.data_append, List.append_assoc]
      rw [h, ← List.append_assoc]
      exact List.infix_append _ _ _
    · have h : (danglingMsg nid tg cl).data =
          ("Nominator '".data ++ nid.data ++ "' votes for ".data) ++
            ("non-existent".data ++ (" candidate '".data ++ (tg.data ++
              ("'. Available candidates: ".data ++ cl.data)))) := by
        simp [danglingMsg, String.data_append, List.append_assoc]
      rw [h, ← List.append_assoc]
      exact List.infix_append _ _ _

/-- C8 witness: the dataset with one candidate `A` and a nominator `NomX`
approving the unknown identifier `ZZZ` fails validation, and the produced
message contains `non-existent`. -/
theorem claim_C8_dangling_target_witness :
    ElectionData.validate ⟨[⟨"A", 1⟩], [⟨"NomX", 5, ["ZZZ"]⟩]⟩ ≠ Except.ok () ∧
    "non-existent".data <:+: (danglingMsg "NomX" "ZZZ" "A").data := by
  have h := claim_C8_dangling_target ⟨[⟨"A", 1⟩], [⟨"NomX", 5, ["ZZZ"]⟩]⟩
    ⟨"NomX", 5, ["ZZZ"]⟩ "ZZZ" (by decide) (by decide) (by decide)
  exact ⟨h.1, (h.2.2 "NomX" "ZZZ" "A").2.2⟩

/-! ## The modelled algorithm with no voters -/

/-- With no voters every candidate scores the sentinel. -/
theorem candScore_nil (c : String) : candScore [] c = none := rfl

/-- With no voters, a held best candidate survives the rest of the fold: every
later candidate also scores the sentinel, which is never strictly smaller. -/
theorem foldl_pickStep_keep (E : List String) (c₀ : String) :
    ∀ l : List String, l.foldl (pickStep E []) (some (c₀, none)) = some (c₀, none) := by
  intro l
  induction l with
  | nil => rfl
  | cons c cs ih =>
    have hstep : pickStep E [] (some (c₀, none)) c = some (c₀, none) := by
      unfold pickStep
      split
      · rfl
      · simp [candScore_nil, scoreLt]
    rw [List.foldl_cons, hstep, ih]

/-- Candidates that are all already elected leave the fold empty-handed. -/
theorem foldl_pickStep_skip (E : List String) :
    ∀ l : List String, (∀ c ∈ l, E.contains c = true) →
      l.foldl (pickStep E []) none = none := by
  intro l
  induction l with
  | nil => intro _; rfl
  | cons c cs ih =>
    intro h
    have hstep : pickStep E [] none c = none := by
      unfold pickStep
      rw [if_pos (by simpa using h c (List.mem_cons_self c cs))]
    rw [List.foldl_cons, hstep]
    exact ih (fun x hx => h x (List.mem_cons_of_mem c hx))

/-- With no voters, the round winner is the first not-yet-elected candidate in
ingestion order. -/
theorem pickWinner_split (E : List String) (l₁ l₂ : List String) (c : String)
    (h₁ : ∀ x ∈ l₁, E.contains x = true) (hc : E.contains c = false) :
    pickWinner (l₁ ++ c :: l₂) E [] = some (c, none) := by
  unfold pickWinner
  rw [List.foldl_append, foldl_pickStep_skip E l₁ h₁, List.foldl_cons]
  have hstep : pickStep E [] none c = some (c, none) := by
    unfold pickStep
    rw [if_neg (by simpa using hc)]
    simp [candScore_nil]
  rw [hstep, foldl_pickStep_keep]

/-- With no voters and the first `t` candidates elected, the winner is the
`t`-th candidate. -/
theorem pickWinner_take (cands : List String) (hnd : cands.Nodup) (t : Nat)
    (ht : t < cands.length) :
    pickWinner cands (cands.take t) [] = some (cands[t], none) := by
  have hdecomp : cands = cands.take t ++ cands[t] :: cands.drop (t + 1) := by
    conv_lhs => rw [← List.take_append_drop t cands]
    rw [List.drop_eq_getElem_cons ht]
  have hmemdrop : cands[t] ∈ cands.drop t := by
    rw [List.drop_eq_getElem_cons ht]
    exact List.mem_cons_self _ _
  have hnotmem : cands[t] ∉ cands.take t := by
    intro hmem
    exact List.disjoint_take_drop hnd (le_refl t) hmem hmemdrop
  have := pickWinner_split (cands.take t) (cands.take t) (cands.drop (t + 1)) cands[t]
    (fun x hx => by simpa using hx) (by simpa using hnotmem)
  rw [← hdecomp] at this
  exact this

/-- With no voters the round loop elects the ingestion-order prefix. -/
theorem phragmenLoop_no_voters (cands : List String) (hnd : cands.Nodup) :
    ∀ (fuel t : Nat), t + fuel ≤ cands.length →
      phragmenLoop fuel cands (cands.take t) [] = (cands.take (t + fuel), []) := by
  intro fuel
  induction fuel with
  | zero => intro t h; simp [phragmenLoop]
  | succ f ih =>
    intro t h
    have ht : t < cands.length := by omega
    unfold phragmenLoop
    rw [pickWinner_take cands hnd t ht]
    show phragmenLoop f cands (cands.take t ++ [cands[t]]) [] = _
    rw [List.take_concat_get' cands t ht]
    have harith : t + (f + 1) = (t + 1) + f := by omega
    rw [harith]
    exact ih (t + 1) (by omega)

/-- With no voters, the modelled `seq_phragmen` elects the first `k`
candidates in ingestion order, each with zero backing and no assignments. -/
theorem seqPhragmen_no_voters (k : Nat) (cands : List String) (hnd : cands.Nodup)
    (hk : k ≤ cands.length) :
    seqPhragmen k cands [] =
      ⟨(cands.take k).map (fun w => (w, 0)), []⟩ := by
  unfold seqPhragmen
  have hloop := phragmenLoop_no_voters cands hnd k 0 (by omega)
  simp only [List.take_zero, Nat.zero_add] at hloop
  simp only [List.map_nil, hloop]
  rfl

/-! ## More validation lemmas and engine plumbing -/

/-- A duplicate scan that finds nothing certifies a duplicate-free list whose
elements avoid the seen set. -/
theorem firstDup_none_nodup : ∀ (l seen : List String), firstDup l seen = none →
    l.Nodup ∧ ∀ x ∈ l, x ∉ seen := by
  intro l
  induction l with
  | nil => intro seen _; exact ⟨List.nodup_nil, by simp⟩
  | cons x xs ih =>
    intro seen h
    unfold firstDup at h
    by_cases hx : x ∈ seen
    · rw [if_pos hx] at h
      exact absurd h (by simp)
    · rw [if_neg hx] at h
      obtain ⟨hnd, hsub⟩ := ih (x :: seen) h
      constructor
      · rw [List.nodup_cons]
        exact ⟨fun hmem => (hsub x hmem) (List.mem_cons_self x seen), hnd⟩
      · intro y hy
        rcases List.mem_cons.mp hy with rfl | hy'
        · exact hx
        · intro hys
          exact hsub y hy' (List.mem_cons_of_mem x hys)

/-- A validated dataset has candidates and duplicate-free candidate ids. -/
theorem validate_ok_parts {data : ElectionData} (h : data.validate = Except.ok ()) :
    data.candidates ≠ [] ∧ (candidateIds data).Nodup := by
  unfold ElectionData.validate at h
  split at h
  · exact absurd h (by simp)
  · rename_i hemp
    refine ⟨by simpa [List.isEmpty_iff] using hemp, ?_⟩
    split at h
    · exact absurd h (by simp)
    · rename_i hfd
      exact (firstDup_none_nodup _ [] hfd).1

/-- Looking up an identifier that occurs among the candidates succeeds and
returns a candidate bearing that identifier. -/
theorem candidateFind_of_mem {data : ElectionData} {id : String}
    (h : id ∈ candidateIds data) :
    ∃ c, candidateFind data id = some c ∧ c.account_id = id := by
  obtain ⟨c, hc, hcid⟩ := List.mem_map.mp h
  cases hf : candidateFind data id with
  | none =>
    have := List.find?_eq_none.mp hf c hc
    simp [hcid] at this
  | some c' =>
    have hp := List.find?_some hf
    exact ⟨c', rfl, by simpa using hp⟩

/-- When every winner identifier resolves to a candidate, the selected
validators carry exactly the winner identifiers, in order. -/
theorem buildSelectedGo_accounts (data : ElectionData) (asg : List Assignment) :
    ∀ (ws : List (String × Nat)) (i : Nat),
      (∀ w ∈ ws, w.1 ∈ candidateIds data) →
      (buildSelectedGo data asg i ws).map (fun sv => sv.account_id) = ws.map (·.1) := by
  intro ws
  induction ws with
  | nil => intro i _; rfl
  | cons w ws ih =>
    intro i hw
    obtain ⟨c, hc, hcid⟩ := candidateFind_of_mem (hw w (List.mem_cons_self w ws))
    unfold buildSelectedGo
    rw [hc]
    simp only [List.map_cons]
    rw [hcid, ih (i + 1) (fun x hx => hw x (List.mem_cons_of_mem w hx))]

/-- Binding a ready `ok` value just applies the continuation. -/
theorem exceptOkBind {ε α β : Type} (a : α) (f : α → Except ε β) :
    (Except.ok a >>= f) = f a := rfl

/-- `pure` on `Except` is `ok`. -/
theorem exceptPureOk {ε α : Type} (a : α) : (pure a : Except ε α) = Except.ok a := rfl

/-- `ElectionEngine::execute` composed from its stages: both validations pass,
the override application produces the working dataset, the algorithm returns
a result, and the result clears the final gate. -/
theorem execute_eq_of_stages {config : ElectionConfiguration} {data d' : ElectionData}
    {r : ElectionResult}
    (h1 : data.validate = Except.ok ())
    (h2 : config.validateAgainstData data.candidates.length = Except.ok ())
    (hmod : (match config.overrides with
             | some ov => ElectionEngine.applyOverrides data ov
             | none => data) = d')
    (h3 : algorithmExecute config.algorithm d' config = Except.ok r)
    (h4 : ElectionEngine.validateResult r config = Except.ok ()) :
    ElectionEngine.execute config data = Except.ok r := by
  unfold ElectionEngine.execute
  simp only [h1, exceptOkBind, h2, hmod, h3, h4, exceptPureOk]

/-- A solution without assignments distributes nothing. -/
theorem buildDistribution_nil_assignments (data : ElectionData)
    (ws : List (String × Nat)) : buildDistribution data ⟨ws, []⟩ = [] := rfl

/-- The converse direction of the final gate: the two checked equalities make
`validate_result` succeed. -/
theorem validateResult_ok_of (result : ElectionResult) (config : ElectionConfiguration)
    (h1 : result.selected_validators.length = config.active_set_size)
    (h2 : (result.stake_distribution.foldl (fun a x => a + x.amount) 0) % U128MOD
      = result.total_stake) :
    ElectionEngine.validateResult result config = Except.ok () := by
  unfold ElectionEngine.validateResult
  split
  · rename_i hc
    exact absurd h1 hc
  · rw [h2]
    simp

/-! ## The modelled PhragMMS computation with no voters, and override
preservation -/

/-- With no voters every candidate's max-min score is the sentinel. -/
theorem mmsScore_nil (E : List String) (c : String) : mmsScore [] E c = none := rfl

/-- With no voters, a held best candidate survives the rest of the §4.3 fold:
a sentinel score never displaces it. -/
theorem mms_foldl_keep (E : List String) (c₀ : String) :
    ∀ l : List String, l.foldl (mmsPickStep E []) (some (c₀, none)) = some (c₀, none) := by
  intro l
  induction l with
  | nil => rfl
  | cons c cs ih =>
    have hstep : mmsPickStep E [] (some (c₀, none)) c = some (c₀, none) := by
      unfold mmsPickStep
      split
      · rfl
      · simp [mmsScore_nil]
    rw [List.foldl_cons, hstep, ih]

/-- Candidates that are all already elected leave the §4.3 fold empty-handed. -/
theorem mms_foldl_skip (E : List String) :
    ∀ l : List String, (∀ c ∈ l, E.contains c = true) →
      l.foldl (mmsPickStep E []) none = none := by
  intro l
  induction l with
  | nil => intro _; rfl
  | cons c cs ih =>
    intro h
    have hstep : mmsPickStep E [] none c = none := by
      unfold mmsPickStep
      rw [if_pos (by simpa using h c (List.mem_cons_self c cs))]
    rw [List.foldl_cons, hstep]
    exact ih (fun x hx => h x (List.mem_cons_of_mem c hx))

/-- With no voters, the §4.3 round winner is the first not-yet-elected
candidate in ingestion order. -/
theorem mmsPickWinner_split (E : List String) (l₁ l₂ : List String) (c : String)
    (h₁ : ∀ x ∈ l₁, E.contains x = true) (hc : E.contains c = false) :
    mmsPickWinner (l₁ ++ c :: l₂) E [] = some c := by
  unfold mmsPickWinner
  rw [List.foldl_append, mms_foldl_skip E l₁ h₁, List.foldl_cons]
  have hstep : mmsPickStep E [] none c = some (c, none) := by
    unfold mmsPickStep
    rw [if_neg (by simpa using hc)]
    simp [mmsScore_nil]
  rw [hstep, mms_foldl_keep]
  rfl

/-- With no voters and the first `t` candidates elected, the §4.3 winner is
the `t`-th candidate. -/
theorem mmsPickWinner_take (cands : List String) (hnd : cands.Nodup) (t : Nat)
    (ht : t < cands.length) :
    mmsPickWinner cands (cands.take t) [] = some cands[t] := by
  have hdecomp : cands = cands.take t ++ cands[t] :: cands.drop (t + 1) := by
    conv_lhs => rw [← List.take_append_drop t cands]
    rw [List.drop_eq_getElem_cons ht]
  have hmemdrop : cands[t] ∈ cands.drop t := by
    rw [List.drop_eq_getElem_cons ht]
    exact List.mem_cons_self _ _
  have hnotmem : cands[t] ∉ cands.take t := by
    intro hmem
    exact List.disjoint_take_drop hnd (le_refl t) hmem hmemdrop
  have := mmsPickWinner_split (cands.take t) (cands.take t) (cands.drop (t + 1)) cands[t]
    (fun x hx => by simpa using hx) (by simpa using hnotmem)
  rw [← hdecomp] at this
  exact this

/-- With no voters the §4.3 winner loop elects the ingestion-order prefix. -/
theorem mmsLoop_no_voters (cands : List String) (hnd : cands.Nodup) :
    ∀ (fuel t : Nat), t + fuel ≤ cands.length →
      mmsLoop fuel cands (cands.take t) [] = cands.take (t + fuel) := by
  intro fuel
  induction fuel with
  | zero => intro t h; simp [mmsLoop]
  | succ f ih =>
    intro t h
    have ht : t < cands.length := by omega
    unfold mmsLoop
    rw [mmsPickWinner_take cands hnd t ht]
    show mmsLoop f cands (cands.take t ++ [cands[t]]) [] = _
    rw [List.take_concat_get' cands t ht]
    have harith : t + (f + 1) = (t + 1) + f := by omega
    rw [harith]
    exact ih (t + 1) (by omega)

/-- With no voters, the modelled `phragmms` elects the first `k` candidates
in ingestion order, each with zero backing and no assignments. -/
theorem phragmms_no_voters (k : Nat) (cands : List String) (hnd : cands.Nodup)
    (hk : k ≤ cands.length) :
    phragmms k cands [] =
      ⟨(cands.take k).map (fun w => (w, 0)), []⟩ := by
  unfold phragmms
  have hloop := mmsLoop_no_voters cands hnd k 0 (by omega)
  simp only [List.take_zero, Nat.zero_add] at hloop
  simp only [List.map_nil, hloop]
  rfl

/-- A fold preserves any invariant its step preserves. -/
theorem foldl_preserves {α β : Type} (f : β → α → β) (P : β → Prop)
    (h : ∀ b a, P b → P (f b a)) : ∀ (l : List α) (b : β), P b → P (l.foldl f b) := by
  intro l
  induction l with
  | nil => intro b hb; exact hb
  | cons a l ih => intro b hb; exact ih _ (h b a hb)

/-- Rewriting a candidate's stake preserves the identifier sequence. -/
theorem setCandidateStake_ids (cs : List ValidatorCandidate) (id : String) (st : Nat) :
    (setCandidateStake cs id st).map (·.account_id) = cs.map (·.account_id) := by
  induction cs with
  | nil => rfl
  | cons c cs ih =>
    unfold setCandidateStake
    split
    · simp
    · simp [ih]

/-- Applying an override set never changes the candidate identifier sequence
(stake overrides rewrite stakes in place; nominator and edge overrides do not
touch the candidate list). -/
theorem applyOverrides_candidateIds (data : ElectionData) (ov : ElectionOverrides) :
    candidateIds (ElectionEngine.applyOverrides data ov) = candidateIds data := by
  unfold ElectionEngine.applyOverrides
  apply foldl_preserves applyEdgeModification (fun d => candidateIds d = candidateIds data)
  · intro b a hb
    unfold applyEdgeModification
    split
    · exact hb
    · exact hb
    · exact hb
  · apply foldl_preserves _ (fun d => candidateIds d = candidateIds data)
    · intro b a hb
      exact hb
    · apply foldl_preserves _ (fun d => candidateIds d = candidateIds data)
      · intro b a hb
        show (setCandidateStake b.candidates a.1 a.2).map (·.account_id) = candidateIds data
        rw [setCandidateStake_ids]
        exact hb
      · rfl

/-- Applying an override set to a dataset without nominators leaves the
nominator list empty: stake overrides and edge modifications on absent
nominators are silently ignored. -/
theorem applyOverrides_nominators_nil (data : ElectionData) (ov : ElectionOverrides)
    (h : data.nominators = []) :
    (ElectionEngine.applyOverrides data ov).nominators = [] := by
  unfold ElectionEngine.applyOverrides
  apply foldl_preserves applyEdgeModification (fun d => d.nominators = [])
  · intro b a hb
    unfold applyEdgeModification
    split
    · show updateNominator b.nominators a.nominator_id _ = []
      rw [hb]
      rfl
    · show updateNominator b.nominators a.nominator_id _ = []
      rw [hb]
      rfl
    · show updateNominator b.nominators a.nominator_id _ = []
      rw [hb]
      rfl
  · apply foldl_preserves
      (fun (d : ElectionData) (p : String × Nat) => { d with nominators :=
        (updateNominator d.nominators p.1 (fun n => { n with stake := p.2 })) })
      (fun d => d.nominators = [])
    · intro b a hb
      show updateNominator b.nominators a.1 _ = []
      rw [hb]
      rfl
    · apply foldl_preserves
        (fun (d : ElectionData) (p : String × Nat) =>
          { d with candidates := setCandidateStake d.candidates p.1 p.2 })
        (fun d => d.nominators = [])
      · intro b a hb
        exact hb
      · exact h

/-- Nominators whose target lists are all empty are filtered out of the voter
list handed to the sequential-Phragmén computation. -/
theorem seqVoters_eq_nil {data : ElectionData}
    (h : ∀ n ∈ data.nominators, n.targets = ([] : List String)) :
    seqVoters data = [] := by
  unfold seqVoters
  rw [List.filterMap_eq_nil_iff]
  intro n hn
  rw [h n hn]
  rfl

/-- Nominators whose target lists are all empty are filtered out of the voter
list handed to the PhragMMS computation. -/
theorem parVoters_eq_nil {data : ElectionData}
    (h : ∀ n ∈ data.nominators, n.targets = ([] : List String)) :
    parVoters data = [] := by
  unfold parVoters
  rw [List.filterMap_eq_nil_iff]
  intro n hn
  rw [h n hn]
  rfl

/-- Nominators whose target lists are all empty are filtered out of the voter
list handed to the multi-phase computation. -/
theorem mpVoters_eq_nil {data : ElectionData}
    (h : ∀ n ∈ data.nominators, n.targets = ([] : List String)) :
    mpVoters data = [] := by
  unfold mpVoters
  rw [List.filterMap_eq_nil_iff]
  intro n hn
  rw [h n hn]
  rfl

/-- Binding an `error` value short-circuits. -/
theorem exceptErrBind {ε α β : Type} (e : ε) (f : α → Except ε β) :
    ((Except.error e : Except ε α) >>= f) = Except.error e := rfl

/-- `ElectionEngine::execute` composed from its stages when the final gate
rejects the algorithm's result: the gate error is what the caller receives. -/
theorem execute_err_at_gate {config : ElectionConfiguration} {data d' : ElectionData}
    {r : ElectionResult} {e : ElectionError}
    (h1 : data.validate = Except.ok ())
    (h2 : config.validateAgainstData data.candidates.length = Except.ok ())
    (hmod : (match config.overrides with
             | some ov => ElectionEngine.applyOverrides data ov
             | none => data) = d')
    (h3 : algorithmExecute config.algorithm d' config = Except.ok r)
    (h4 : ElectionEngine.validateResult r config = Except.error e) :
    ElectionEngine.execute config data = Except.error e := by
  unfold ElectionEngine.execute
  simp only [h1, exceptOkBind, h2, hmod, h3, h4, exceptErrBind]

/-- When the validator count matches but the allocation sum does not, the
final gate produces the stake-distribution `ValidationError`. -/
theorem validateResult_err_exists (result : ElectionResult)
    (config : ElectionConfiguration)
    (h1 : result.selected_validators.length = config.active_set_size)
    (h2 : (result.stake_distribution.foldl (fun a x => a + x.amount) 0) % U128MOD
      ≠ result.total_stake) :
    ∃ m, ElectionEngine.validateResult result config =
      Except.error (.validationError m (some "stake_distribution")) := by
  unfold ElectionEngine.validateResult
  rw [if_neg (fun hc => hc h1)]
  refine ⟨"Stake distribution total " ++
    toString ((result.stake_distribution.foldl (fun a x => a + x.amount) 0) % U128MOD) ++
    " doesn't match total stake " ++ toString result.total_stake, ?_⟩
  simp [h2]

/-- The selected validators of a no-voters solution carry exactly the first
`k` candidate identifiers, in ingestion order. -/
theorem buildSelected_no_voters_accounts (d : ElectionData) (k : Nat) :
    (buildSelected d ⟨((candidateIds d).take k).map (fun w => (w, 0)), []⟩).map
      (fun sv => sv.account_id) = (candidateIds d).take k := by
  have hwmem : ∀ w ∈ ((candidateIds d).take k).map (fun w => (w, 0)),
      w.1 ∈ candidateIds d := by
    intro w hw
    obtain ⟨x, hx, rfl⟩ := List.mem_map.mp hw
    exact List.take_subset _ _ hx
  rw [show buildSelected d ⟨((candidateIds d).take k).map (fun w => (w, 0)), []⟩ =
    buildSelectedGo d [] 0 (((candidateIds d).take k).map (fun w => (w, 0))) from rfl]
  rw [buildSelectedGo_accounts d [] _ 0 hwmem, List.map_map]
  exact List.map_id _

/-- A no-voters solution over `k ≤ |candidates|` selects exactly `k`
validators. -/
theorem buildSelected_no_voters_length (d : ElectionData) (k : Nat)
    (hk : k ≤ d.candidates.length) :
    (buildSelected d ⟨((candidateIds d).take k).map (fun w => (w, 0)), []⟩).length
      = k := by
  have h1 := congrArg List.length (buildSelected_no_voters_accounts d k)
  rw [List.length_map, List.length_take] at h1
  rw [h1]
  simp [candidateIds]
  omega

/-- Every one of the three algorithms, run on a dataset all of whose
nominators have empty target lists, succeeds with the first `k` candidates in
ingestion order (zero backing, no assignments) and the full nominator-stake
total. -/
theorem algorithmExecute_no_voters (d : ElectionData) (config : ElectionConfiguration)
    (hne : d.candidates ≠ [])
    (hnd : (candidateIds d).Nodup)
    (hkd : config.active_set_size ≤ d.candidates.length)
    (hv : ∀ n ∈ d.nominators, n.targets = ([] : List String)) :
    algorithmExecute config.algorithm d config = Except.ok
      ⟨buildSelected d
         ⟨((candidateIds d).take config.active_set_size).map (fun w => (w, 0)), []⟩,
       buildDistribution d
         ⟨((candidateIds d).take config.active_set_size).map (fun w => (w, 0)), []⟩,
       totalNominatorStake d, config.algorithm,
       ⟨config.block_number, none⟩⟩ := by
  have hidslen : (candidateIds d).length = d.candidates.length := by
    simp [candidateIds]
  have hkids : config.active_set_size ≤ (candidateIds d).length := by
    rw [hidslen]
    exact hkd
  have hemp : ¬(d.candidates.isEmpty = true) := by
    simpa [List.isEmpty_iff] using hne
  cases halg : config.algorithm with
  | sequentialPhragmen =>
    show SequentialPhragmen.execute d config = _
    unfold SequentialPhragmen.execute
    rw [if_neg hemp]
    simp only [seqVoters_eq_nil hv,
      seqPhragmen_no_voters config.active_set_size (candidateIds d) hnd hkids]
  | parallelPhragmen =>
    show ParallelPhragmen.execute d config = _
    unfold ParallelPhragmen.execute
    rw [if_neg hemp]
    simp only [parVoters_eq_nil hv,
      phragmms_no_voters config.active_set_size (candidateIds d) hnd hkids]
  | multiPhase =>
    show MultiPhase.execute d config = _
    unfold MultiPhase.execute
    rw [if_neg hemp]
    simp only [mpVoters_eq_nil hv,
      seqPhragmen_no_voters config.active_set_size (candidateIds d) hnd hkids]

/-- C2 counterexample, refuting both asserted behaviours.  First: with two
candidates `A` (stake 1) and `B` (stake 5), zero nominators and active-set
size 1, the candidate with the greatest self-stake is `B`, yet execution
selects `A` — self-stake does not steer the zero-nominator selection,
ingestion order does.  Second: a validated dataset whose only nominator has
an empty target list but nonzero stake (9) does not succeed at all — the
conservation gate rejects the run, because the reported total stake sums all
nominators while the distribution is empty. -/
theorem claim_C2_counterexample :
    ((ElectionEngine.execute ⟨.sequentialPhragmen, 1, none, none⟩
        ⟨[⟨"A", 1⟩, ⟨"B", 5⟩], []⟩).map
      (fun r => r.selected_validators.map (·.account_id)) = Except.ok ["A"] ∧
     (1 : Nat) < 5 ∧ "A" ≠ "B") ∧
    (ElectionData.validate ⟨[⟨"P", 4⟩], [⟨"Q", 9, []⟩]⟩ = Except.ok () ∧
     ElectionEngine.execute ⟨.sequentialPhragmen, 1, none, none⟩
        ⟨[⟨"P", 4⟩], [⟨"Q", 9, []⟩]⟩ =
      Except.error (.validationError
        "Stake distribution total 0 doesn't match total stake 9"
        (some "stake_distribution"))) := by decide

/-- C2 (amended): over a validated dataset with `k ≤ |candidates|` and any
algorithm choice.  With zero nominators the election succeeds — whatever
override set is configured, since overrides cannot touch an absent nominator
and candidate-stake overrides do not reach the selection — and selects the
first `k` candidates in ingestion order; self-stake never enters the
selection computation.  With nominators that all have empty target lists and
nonzero total stake (and no overrides, which could otherwise add voting
edges), execution does not succeed: the conservation gate rejects the run
with the stake-distribution `ValidationError`. -/
theorem claim_C2_self_stake_fallback (data : ElectionData)
    (config : ElectionConfiguration)
    (hval : data.validate = Except.ok ())
    (hk : config.active_set_size ≤ data.candidates.length) :
    (data.nominators = [] →
      ∃ r, ElectionEngine.execute config data = Except.ok r ∧
        r.selected_validators.map (·.account_id) =
          (data.candidates.take config.active_set_size).map (·.account_id)) ∧
    ((∀ n ∈ data.nominators, n.targets = ([] : List String)) →
     config.overrides = none →
     totalNominatorStake data ≠ 0 →
     ∃ m, ElectionEngine.execute config data =
       Except.error (.validationError m (some "stake_distribution"))) := by
  obtain ⟨hne, hnd⟩ := validate_ok_parts hval
  have h2 : config.validateAgainstData data.candidates.length = Except.ok () := by
    unfold ElectionConfiguration.validateAgainstData
    rw [if_neg (by omega)]
  have hids_take : (candidateIds data).take config.active_set_size =
      (data.candidates.take config.active_set_size).map (·.account_id) := by
    unfold candidateIds
    rw [List.map_take]
  constructor
  · intro hnom
    obtain ⟨d', hmod, hd'nom, hd'ids⟩ :
        ∃ d', (match config.overrides with
               | some ov => ElectionEngine.applyOverrides data ov
               | none => data) = d' ∧ d'.nominators = [] ∧
          candidateIds d' = candidateIds data := by
      cases config.overrides with
      | none => exact ⟨data, rfl, hnom, rfl⟩
      | some ov => exact ⟨ElectionEngine.applyOverrides data ov, rfl,
          applyOverrides_nominators_nil data ov hnom,
          applyOverrides_candidateIds data ov⟩
    have hd'len : d'.candidates.length = data.candidates.length := by
      have := congrArg List.length hd'ids
      simpa [candidateIds] using this
    have hd'ne : d'.candidates ≠ [] := by
      intro h0
      apply hne
      rw [← List.length_eq_zero]
      rw [← hd'len, h0]
      rfl
    have hd'nd : (candidateIds d').Nodup := hd'ids ▸ hnd
    have hkd' : config.active_set_size ≤ d'.candidates.length := by omega
    have halgx := algorithmExecute_no_voters d' config hd'ne hd'nd hkd'
      (by rw [hd'nom]; intro n hn; exact absurd hn (List.not_mem_nil n))
    have hlen := buildSelected_no_voters_length d' config.active_set_size hkd'
    have hcons : ((buildDistribution d'
        ⟨((candidateIds d').take config.active_set_size).map (fun w => (w, 0)), []⟩).foldl
          (fun a x => a + x.amount) 0) % U128MOD = totalNominatorStake d' := by
      rw [buildDistribution_nil_assignments]
      unfold totalNominatorStake
      rw [hd'nom]
      rfl
    refine ⟨_, execute_eq_of_stages hval h2 hmod halgx
      (validateResult_ok_of _ _ hlen hcons), ?_⟩
    rw [show (⟨buildSelected d'
         ⟨((candidateIds d').take config.active_set_size).map (fun w => (w, 0)), []⟩,
       buildDistribution d'
         ⟨((candidateIds d').take config.active_set_size).map (fun w => (w, 0)), []⟩,
       totalNominatorStake d', config.algorithm,
       ⟨config.block_number, none⟩⟩ : ElectionResult).selected_validators =
      buildSelected d'
        ⟨((candidateIds d').take config.active_set_size).map (fun w => (w, 0)), []⟩ from rfl]
    rw [buildSelected_no_voters_accounts d' config.active_set_size, hd'ids, hids_take]
  · intro hempty hov htot
    have hmod : (match config.overrides with
                 | some ov => ElectionEngine.applyOverrides data ov
                 | none => data) = data := by
      rw [hov]
    have halgx := algorithmExecute_no_voters data config hne hnd hk hempty
    have hlen := buildSelected_no_voters_length data config.active_set_size hk
    have hnecons : ((buildDistribution data
        ⟨((candidateIds data).take config.active_set_size).map (fun w => (w, 0)), []⟩).foldl
          (fun a x => a + x.amount) 0) % U128MOD ≠ totalNominatorStake data := by
      rw [buildDistribution_nil_assignments]
      intro hc
      exact htot (by simpa using hc.symm)
    obtain ⟨m, hm⟩ := validateResult_err_exists
      ⟨buildSelected data
         ⟨((candidateIds data).take config.active_set_size).map (fun w => (w, 0)), []⟩,
       buildDistribution data
         ⟨((candidateIds data).take config.active_set_size).map (fun w => (w, 0)), []⟩,
       totalNominatorStake data, config.algorithm, ⟨config.block_number, none⟩⟩
      config hlen hnecons
    exact ⟨m, execute_err_at_gate hval h2 hmod halgx hm⟩

/-- C2 witness: three candidates with self-stakes 1, 5, 3 and zero
nominators, active-set size 2 — the election succeeds and selects the first
two candidates in ingestion order (`A` and `B`); and a dataset whose only
nominator has stake 6 and no targets fails the conservation gate under the
PhragMMS algorithm. -/
theorem claim_C2_self_stake_fallback_witness :
    (∃ r, ElectionEngine.execute ⟨.sequentialPhragmen, 2, none, none⟩
        ⟨[⟨"A", 1⟩, ⟨"B", 5⟩, ⟨"C", 3⟩], []⟩ = Except.ok r ∧
      r.selected_validators.map (·.account_id) = ["A", "B"]) ∧
    (∃ m, ElectionEngine.execute ⟨.parallelPhragmen, 1, none, none⟩
        ⟨[⟨"D", 2⟩], [⟨"E", 6, []⟩]⟩ =
      Except.error (.validationError m (some "stake_distribution"))) := by
  constructor
  · obtain ⟨r, hr, hids⟩ := (claim_C2_self_stake_fallback
      ⟨[⟨"A", 1⟩, ⟨"B", 5⟩, ⟨"C", 3⟩], []⟩ ⟨.sequentialPhragmen, 2, none, none⟩
      (by decide) (by decide)).1 rfl
    exact ⟨r, hr, hids.trans (by decide)⟩
  · exact (claim_C2_self_stake_fallback ⟨[⟨"D", 2⟩], [⟨"E", 6, []⟩]⟩
      ⟨.parallelPhragmen, 1, none, none⟩ (by decide) (by decide)).2
      (by decide) rfl (by decide)

end OfflineElection
